import Mathlib

/-!
Shallow embedding of the signal-classification and meme-ticker-extraction
core of src/sentiment_dashboard_dark.py, together with theorems about the
properties the specification states for that core.

Numeric readings (VIX, RSI, news score) are modelled as rational numbers;
the classifiers only compare them against constant thresholds, so the
ordered-field structure of the rationals captures the comparisons the code
performs. An unavailable reading (Python None) is modelled as Option.none.
-/

set_option autoImplicit false

namespace SentimentDashboard

/-- Result of fetch_google_trends: either an integer interest score or the
string sentinel "Rate Limited" returned on a rate-limit error. A generic
failure (Python None) is modelled as none at the Option level. -/
inductive TrendsVal where
  | num (n : ℤ)
  | rateLimited
deriving DecidableEq, Repr

/-- Embedding of the Python guard x is not None and x > c. -/
def optGt (x : Option ℚ) (c : ℚ) : Bool :=
  match x with
  | some v => decide (c < v)
  | none => false

/-- Embedding of the Python guard x is not None and x < c. -/
def optLt (x : Option ℚ) (c : ℚ) : Bool :=
  match x with
  | some v => decide (v < c)
  | none => false

/-- Embedding of the Python guard x is not None and lo <= x <= hi. -/
def optBetweenII (x : Option ℚ) (lo hi : ℚ) : Bool :=
  match x with
  | some v => decide (lo ≤ v ∧ v ≤ hi)
  | none => false

/-- Embedding of the Python guard x is not None and lo < x < hi. -/
def optBetweenEE (x : Option ℚ) (lo hi : ℚ) : Bool :=
  match x with
  | some v => decide (lo < v ∧ v < hi)
  | none => false

/-- Embedding of the Python guard
t is not None and isinstance(t, int) and t > c: the sentinel
"Rate Limited" fails the isinstance test, so only an integer reading can
satisfy the guard. -/
def trendsIntGt (t : Option TrendsVal) (c : ℤ) : Bool :=
  match t with
  | some (.num n) => decide (c < n)
  | _ => false

/-- Embedding of the Python guard
t is not None and t != "Rate Limited" and t < c used by the overheated
rule of buffett_style_signal. -/
def trendsLtNotRateLimited (t : Option TrendsVal) (c : ℤ) : Bool :=
  match t with
  | some (.num n) => decide (n < c)
  | some .rateLimited => false
  | none => false

/-- Verdict string returned by the first (strong-buy) rule of
buffett_style_signal, byte for byte as in the source. -/
def strongBuyVerdict : String :=
  "üü¢ Buffett: Really Good Time to Buy (Be Greedy When Others Are Fearful)"

/-- Verdict string returned by the second (accumulate) rule of
buffett_style_signal. -/
def accumulateVerdict : String :=
  "üü° Buffett: Good Time to Accumulate, Be Patient"

/-- Verdict string returned by the third (neutral-band) rule of
buffett_style_signal. The final fallback return of the source repeats
this same string literal, so the source function has exactly four
distinct return values. -/
def waitVerdict : String :=
  "‚ö™ Buffett: Wait, Stay Patient (No Edge)"

/-- Verdict string returned by the fourth (overheated) rule of
buffett_style_signal. -/
def overheatedVerdict : String :=
  "üî¥ Buffett: Market Overheated, Wait for Pullback"

/-- Verdict string returned by tomlee_signal when the bullish score is at
least 2. -/
def buyDipVerdict : String :=
  "üü¢ Tom Lee: Good Time to Buy (Buy the Dip Mentality)"

/-- Verdict string returned by the too-hot rule of tomlee_signal. -/
def tooHotVerdict : String :=
  "üî¥ Tom Lee: Even Tom Lee says: Hold Off, Too Hot!"

/-- Fallback verdict string of tomlee_signal. -/
def stayInvestedVerdict : String :=
  "‚ö™ Tom Lee: Stay Invested or Accumulate Slowly"

/-- Embedding of the fear_count accumulation at the start of
buffett_style_signal: one point for VIX above 28, one for an integer
trends reading above 80, one for news below 35; an unavailable reading
contributes nothing. -/
def fear_count (vix : Option ℚ) (trends : Option TrendsVal) (news : Option ℚ) : Nat :=
  (if optGt vix 28 then 1 else 0)
    + (if trendsIntGt trends 80 then 1 else 0)
    + (if optLt news 35 then 1 else 0)

/-- Embedding of buffett_style_signal (source lines 209-222): the ordered
rule list evaluated top to bottom, returning the verdict of the first rule
whose condition holds, with the final return repeating the neutral-band
string. -/
def buffett_style_signal (vix rsi : Option ℚ) (trends : Option TrendsVal)
    (news : Option ℚ) : String :=
  if optLt rsi 35 ∧ 2 ≤ fear_count vix trends news then strongBuyVerdict
  else if optLt rsi 40 ∧ 1 ≤ fear_count vix trends news then accumulateVerdict
  else if optBetweenII rsi 40 60 ∧ optBetweenEE vix 16 28 ∧ optBetweenII news 35 65 then
    waitVerdict
  else if optGt rsi 70 ∧ optGt news 60 ∧ trendsLtNotRateLimited trends 20 then
    overheatedVerdict
  else waitVerdict

/-- Embedding of the bullish_score accumulation at the start of
tomlee_signal: one point for VIX above 22, one for RSI below 45, one for
an integer trends reading above 60, one for news below 50. -/
def bullish_score (vix rsi : Option ℚ) (trends : Option TrendsVal)
    (news : Option ℚ) : Nat :=
  (if optGt vix 22 then 1 else 0)
    + (if optLt rsi 45 then 1 else 0)
    + (if trendsIntGt trends 60 then 1 else 0)
    + (if optLt news 50 then 1 else 0)

/-- Embedding of tomlee_signal (source lines 225-235). -/
def tomlee_signal (vix rsi : Option ℚ) (trends : Option TrendsVal)
    (news : Option ℚ) : String :=
  if 2 ≤ bullish_score vix rsi trends news then buyDipVerdict
  else if optLt vix 14 ∧ optGt rsi 70 ∧ optGt news 60 then tooHotVerdict
  else stayInvestedVerdict

/-- Restatement of the style B score in the words of the specification: the
count of the four threshold crossings, an unavailable indicator
contributing nothing. Used to compare the source function against the
specified algorithm. -/
def bullishness_crossings (vix rsi : Option ℚ) (trends : Option TrendsVal)
    (news : Option ℚ) : Nat :=
  ([optGt vix 22, optLt rsi 45, trendsIntGt trends 60, optLt news 50].count true)

/-!
Embedding of the meme-ticker extraction pipeline
(fetch_reddit_meme_tickers, source lines 104-124). The network fetch of
post texts is modelled as an Except value handed to the function: ok posts
is a successful fetch of the batch of title-plus-body strings, error
models an exception raised during fetching, which the except clause of the
source turns into an empty list. The regex scan, exclusion filter, Counter
and most_common(5) steps are embedded directly.
-/

/-- Word characters for the word-boundary assertion of the pattern
(letters, digits, underscore; the post texts scanned here are ASCII). -/
def isWordChar (c : Char) : Bool := c.isAlphanum || c = '_'

/-- Uppercase Latin letter, the character class of the pattern. -/
def isUpperAZ (c : Char) : Bool := decide ('A' ≤ c) && decide (c ≤ 'Z')

/-- The word-boundary assertion at the position starting the given
suffix: holds at end of input or before a non-word character. -/
def boundaryOk : List Char → Bool
  | [] => true
  | c :: _ => !isWordChar c

/-- One backtracking attempt of the group [A-Z]\x7b2,5\x7d at a fixed
repetition count k: succeeds when k uppercase letters are present and are
followed by a word boundary, consuming them. -/
def tryRep (k : Nat) (cs : List Char) : Option (List Char × List Char) :=
  if (cs.take k).length = k ∧ (cs.take k).all isUpperAZ ∧ boundaryOk (cs.drop k) then
    some (cs.take k, cs.drop k)
  else none

/-- Greedy match of [A-Z]\x7b2,5\x7d followed by a word boundary at the
current position: the regex engine tries five letters first and
backtracks down to two. -/
def matchLetters (cs : List Char) : Option (List Char × List Char) :=
  match tryRep 5 cs with
  | some r => some r
  | none =>
    match tryRep 4 cs with
    | some r => some r
    | none =>
      match tryRep 3 cs with
      | some r => some r
      | none => tryRep 2 cs

/-- Match of the whole pattern at the current position: an optional
dollar marker followed by the letter group. When a dollar sign is present
the optional marker must consume it, since the letter class cannot match
the dollar sign itself. Returns the captured group and the rest of the
input after the match. -/
def matchTicker (cs : List Char) : Option (List Char × List Char) :=
  match cs with
  | '$' :: rest => matchLetters rest
  | _ => matchLetters cs

/-- Left-to-right non-overlapping scan of re.findall: try the pattern at
each position, emit the captured group and resume after the match on
success, advance one character on failure. The fuel argument starts at
the input length, which bounds the number of scan steps since every step
consumes at least one character. -/
def findallAux : Nat → List Char → List (List Char)
  | 0, _ => []
  | _ + 1, [] => []
  | fuel + 1, c :: cs =>
    match matchTicker (c :: cs) with
    | some (g, rest) => g :: findallAux fuel rest
    | none => findallAux fuel cs

/-- Embedding of pat.findall(text) for the fixed ticker pattern. -/
def findall (text : String) : List String :=
  (findallAux text.data.length text.data).map fun g => String.mk g

/-- The hardcoded exclusion set of the source. -/
def excludeSet : List String :=
  ["USD", "WSB", "ETF", "IPO", "SPAC", "CEO", "DD", "FOMO", "ATH", "LOL", "TOS"]

/-- The per-token filter of the source loop:
match not in exclude and match.isalpha(). -/
def keepToken (m : String) : Bool :=
  !(excludeSet.contains m) && (m.length != 0) && m.data.all Char.isAlpha

/-- The mention-gathering double loop of the source: for each post text,
append every captured token passing the filter, in scan order. -/
def extractMentions (posts : List String) : List String :=
  posts.foldl (fun acc text => acc ++ (findall text).filter keepToken) []

/-- One insertion step of collections.Counter: bump the count of a key
already present, otherwise append the key with count one, preserving
first-insertion order of keys. -/
def tallyStep (acc : List (String × Nat)) (x : String) : List (String × Nat) :=
  if acc.any fun p => p.1 = x then
    acc.map fun p => if p.1 = x then (p.1, p.2 + 1) else p
  else acc ++ [(x, 1)]

/-- Counter(mentions) as an association list in first-insertion key
order. -/
def tally (xs : List String) : List (String × Nat) := xs.foldl tallyStep []

/-- Stable insertion into a list sorted by descending count: the new
element goes after every element of count greater than or equal to its
own, so earlier-inserted keys stay ahead of later ones on ties. -/
def insertByCount (x : String × Nat) : List (String × Nat) → List (String × Nat)
  | [] => [x]
  | y :: ys => if x.2 ≤ y.2 then y :: insertByCount x ys else x :: y :: ys

/-- Stable sort by descending count, inserting entries in their Counter
order; this matches the documented semantics of Counter.most_common
(sorted by count, ties in insertion order). -/
def sortByCountDesc (xs : List (String × Nat)) : List (String × Nat) :=
  xs.foldl (fun acc x => insertByCount x acc) []

/-- Counter(xs).most_common(n). -/
def most_common (n : Nat) (xs : List String) : List (String × Nat) :=
  (sortByCountDesc (tally xs)).take n

/-- The pure body of fetch_reddit_meme_tickers after the posts have been
fetched: scan, filter, count, and take the five most common. -/
def extract_meme_tickers (posts : List String) : List (String × Nat) :=
  most_common 5 (extractMentions posts)

/-- Embedding of fetch_reddit_meme_tickers: the except clause maps any
exception raised while fetching or scanning to an empty list. -/
def fetch_reddit_meme_tickers (fetched : Except String (List String)) :
    List (String × Nat) :=
  match fetched with
  | .ok posts => extract_meme_tickers posts
  | .error _ => []

/-!
Embedding of get_price_change (source lines 126-134). The yfinance
history fetch is modelled as an Except value carrying the list of closing
prices in chronological order; an exception maps to none via the except
clause. Rounding to two decimals uses round-half-to-even as Python round
does.
-/

/-- Round-half-to-even on rationals, the tie-breaking rule of Python
round. -/
def roundHalfEven (q : ℚ) : ℤ :=
  if q - ⌊q⌋ < 1 / 2 then ⌊q⌋
  else if 1 / 2 < q - ⌊q⌋ then ⌊q⌋ + 1
  else if ⌊q⌋ % 2 = 0 then ⌊q⌋ else ⌊q⌋ + 1

/-- round(q, 2). -/
def round2 (q : ℚ) : ℚ := (roundHalfEven (q * 100) : ℚ) / 100

/-- Embedding of get_price_change: with at least two closes available,
the rounded percentage change between the last two; otherwise, or on a
fetch exception, the unavailable sentinel none. -/
def get_price_change (hist : Except String (List ℚ)) : Option ℚ :=
  match hist with
  | .ok closes =>
    match closes.reverse with
    | lastC :: prevC :: _ => some (round2 ((lastC - prevC) / prevC * 100))
    | _ => none
  | .error _ => none

/-- Embedding of the display loop over the extracted mentions (source
lines 255-259): every ticker of the ranked list is kept and annotated
with the optional price change looked up for it; a lookup returning none
only leaves the annotation absent. -/
def annotate_mentions (memes : List (String × Nat)) (price : String → Option ℚ) :
    List (String × Nat × Option ℚ) :=
  memes.map fun p => (p.1, p.2, price p.1)

/-!
Theorems about the signal classifiers.
-/

/-- C1: buffett_style_signal evaluates its rule list in order and the
first rule preempts the rest: whenever the momentum reading is present
and below 35 and the fear count is at least 2, the strong-buy verdict is
returned, even though such snapshots also satisfy the accumulate rule;
in particular momentum 30 with fear count 2 yields the strong-buy
verdict, which differs from the accumulate verdict. -/
theorem buffett_rule_priority :
    (∀ (vix rsi : Option ℚ) (trends : Option TrendsVal) (news : Option ℚ) (r : ℚ),
      rsi = some r → r < 35 → 2 ≤ fear_count vix trends news →
      buffett_style_signal vix rsi trends news = strongBuyVerdict) ∧
    buffett_style_signal (some 30) (some 30) none (some 30) = strongBuyVerdict ∧
    2 ≤ fear_count (some 30) none (some 30) ∧
    strongBuyVerdict ≠ accumulateVerdict := by
  refine ⟨?_, by decide, by decide, by decide⟩
  intro vix rsi trends news r hr h35 hf
  subst hr
  have h1 : optLt (some r) 35 = true := by
    simp [optLt, h35]
  simp [buffett_style_signal, h1, hf]

/-- Witness for C1: the theorem applied at the concrete snapshot with
momentum 30 and fear count 2. -/
theorem buffett_rule_priority_witness :
    buffett_style_signal (some 30) (some 30) none (some 30) = strongBuyVerdict :=
  buffett_rule_priority.1 (some 30) (some 30) none (some 30) 30 rfl (by norm_num)
    (by decide)

/-- C3: on the snapshot where every indicator is unavailable, both
classifiers return their final fallback verdict, and neither fallback is
the empty string. Totality (no exception) is inherent: both embeddings
are total Lean functions over the option-valued snapshot. -/
theorem classifiers_fallback_on_all_unavailable :
    buffett_style_signal none none none none = waitVerdict ∧
    tomlee_signal none none none none = stayInvestedVerdict ∧
    waitVerdict ≠ "" ∧ stayInvestedVerdict ≠ "" := by
  refine ⟨rfl, rfl, by decide, by decide⟩

/-- C4 counterexample: the otherwise branch of buffett_style_signal does
not return a verdict distinct from the third rule; the all-unavailable
snapshot (which reaches the final fallback return) and a snapshot
satisfying the third rule (momentum 50, volatility 20, sentiment 50)
produce the identical verdict string. -/
theorem buffett_fallback_equals_wait_cex :
    buffett_style_signal none none none none =
      buffett_style_signal (some 20) (some 50) none (some 50) ∧
    buffett_style_signal (some 20) (some 50) none (some 50) = waitVerdict := by
  constructor <;> decide

/-- C4 amended: the set of reachable return values of
buffett_style_signal is the closed four-element enumeration strong-buy,
accumulate, wait, overheated; each of the four is reachable, they are
pairwise distinct, and the otherwise branch returns the same string as
the third rule. -/
theorem buffett_verdict_range :
    (∀ (vix rsi : Option ℚ) (trends : Option TrendsVal) (news : Option ℚ),
      buffett_style_signal vix rsi trends news ∈
        [strongBuyVerdict, accumulateVerdict, waitVerdict, overheatedVerdict]) ∧
    buffett_style_signal (some 30) (some 30) none (some 30) = strongBuyVerdict ∧
    buffett_style_signal (some 30) (some 38) none (some 50) = accumulateVerdict ∧
    buffett_style_signal (some 20) (some 50) none (some 50) = waitVerdict ∧
    buffett_style_signal none (some 75) (some (.num 10)) (some 70) = overheatedVerdict ∧
    [strongBuyVerdict, accumulateVerdict, waitVerdict, overheatedVerdict].Nodup ∧
    buffett_style_signal none none none none = waitVerdict := by
  refine ⟨?_, by decide, by decide, by decide, by decide, by decide, rfl⟩
  intro vix rsi trends news
  unfold buffett_style_signal
  split_ifs <;> simp

/-- C5: tomlee_signal implements the specified style B algorithm: with
the bullishness score computed as the count of the four threshold
crossings (volatility above 22, momentum below 45, trend-interest above
60, sentiment below 50, unavailable readings contributing nothing), it
returns buy-the-dip when the score is at least 2, otherwise too-hot when
volatility is below 14 and momentum above 70 and sentiment above 60,
otherwise stay-invested. -/
theorem tomlee_matches_spec (vix rsi : Option ℚ) (trends : Option TrendsVal)
    (news : Option ℚ) :
    tomlee_signal vix rsi trends news =
      if 2 ≤ bullishness_crossings vix rsi trends news then buyDipVerdict
      else if optLt vix 14 ∧ optGt rsi 70 ∧ optGt news 60 then tooHotVerdict
      else stayInvestedVerdict := by
  have hsc : bullish_score vix rsi trends news =
      bullishness_crossings vix rsi trends news := by
    unfold bullish_score bullishness_crossings
    cases optGt vix 22 <;> cases optLt rsi 45 <;> cases trendsIntGt trends 60 <;>
      cases optLt news 50 <;> rfl
  unfold tomlee_signal
  rw [hsc]

/-- C6: the strong-buy momentum comparison is strict: at momentum exactly
35, the first rule never fires, and whenever the fear count is at least 1
the classifier returns the accumulate verdict (which differs from the
strong-buy verdict, so in particular fear count 2 does not yield
strong-buy). -/
theorem buffett_boundary_rsi_35 :
    (∀ (vix : Option ℚ) (trends : Option TrendsVal) (news : Option ℚ),
      1 ≤ fear_count vix trends news →
      buffett_style_signal vix (some 35) trends news = accumulateVerdict) ∧
    accumulateVerdict ≠ strongBuyVerdict := by
  refine ⟨?_, by decide⟩
  intro vix trends news hf
  have h1 : optLt (some (35 : ℚ)) 35 = false := by decide
  have h2 : optLt (some (35 : ℚ)) 40 = true := by decide
  simp [buffett_style_signal, h1, h2, hf]

/-- Witness for C6: the theorem applied at the snapshot with momentum
exactly 35 and fear count 2 (volatility 30 and sentiment 30 both cross
their fear thresholds). -/
theorem buffett_boundary_rsi_35_witness :
    2 ≤ fear_count (some 30) none (some 30) ∧
    buffett_style_signal (some 30) (some 35) none (some 30) = accumulateVerdict :=
  ⟨by decide, buffett_boundary_rsi_35.1 (some 30) none (some 30) (by decide)⟩

/-- C10: both classifiers treat the rate-limited trends sentinel exactly
like an unavailable trends reading: for every snapshot the verdicts
computed with trends rate-limited and with trends unavailable coincide.
In the embedding the sentinel is consumed only by the total matches of
trendsIntGt and trendsLtNotRateLimited, so no numeric comparison ever
touches it and no exception can arise. -/
theorem rate_limited_trends_like_none :
    ∀ vix rsi news : Option ℚ,
      buffett_style_signal vix rsi (some .rateLimited) news =
        buffett_style_signal vix rsi none news ∧
      tomlee_signal vix rsi (some .rateLimited) news =
        tomlee_signal vix rsi none news :=
  fun _ _ _ => ⟨rfl, rfl⟩

/-!
Helper lemmas about the extraction pipeline: every token emitted by the
scanner is a two-to-five letter uppercase word, and membership survives
each later stage (filter, tally, sort, truncation).
-/

theorem tryRep_some {k : Nat} {cs g rest : List Char}
    (h : tryRep k cs = some (g, rest)) :
    g.length = k ∧ g.all isUpperAZ = true := by
  unfold tryRep at h
  split at h
  · rename_i hc
    rw [Option.some.injEq, Prod.mk.injEq] at h
    obtain ⟨hg, _⟩ := h
    subst hg
    exact ⟨hc.1, hc.2.1⟩
  · exact absurd h (by simp)

theorem matchLetters_some {cs g rest : List Char}
    (h : matchLetters cs = some (g, rest)) :
    2 ≤ g.length ∧ g.length ≤ 5 ∧ g.all isUpperAZ = true := by
  unfold matchLetters at h
  split at h
  · rename_i r h5
    rw [Option.some.injEq] at h
    subst h
    obtain ⟨hl, ha⟩ := tryRep_some h5
    exact ⟨by omega, by omega, ha⟩
  · split at h
    · rename_i r h4
      rw [Option.some.injEq] at h
      subst h
      obtain ⟨hl, ha⟩ := tryRep_some h4
      exact ⟨by omega, by omega, ha⟩
    · split at h
      · rename_i r h3
        rw [Option.some.injEq] at h
        subst h
        obtain ⟨hl, ha⟩ := tryRep_some h3
        exact ⟨by omega, by omega, ha⟩
      · obtain ⟨hl, ha⟩ := tryRep_some h
        exact ⟨by omega, by omega, ha⟩

theorem matchTicker_some {cs g rest : List Char}
    (h : matchTicker cs = some (g, rest)) :
    2 ≤ g.length ∧ g.length ≤ 5 ∧ g.all isUpperAZ = true := by
  unfold matchTicker at h
  split at h
  · exact matchLetters_some h
  · exact matchLetters_some h

theorem mem_findallAux {g : List Char} :
    ∀ {fuel : Nat} {cs : List Char}, g ∈ findallAux fuel cs →
      2 ≤ g.length ∧ g.length ≤ 5 ∧ g.all isUpperAZ = true := by
  intro fuel
  induction fuel with
  | zero => intro cs h; simp [findallAux] at h
  | succ n ih =>
    intro cs h
    cases cs with
    | nil => simp [findallAux] at h
    | cons c cs' =>
      rw [findallAux] at h
      split at h
      · rename_i g' rest hm
        rcases List.mem_cons.1 h with h1 | h1
        · subst h1
          exact matchTicker_some hm
        · exact ih h1
      · exact ih h

theorem mem_findall {text s : String} (h : s ∈ findall text) :
    2 ≤ s.length ∧ s.length ≤ 5 ∧ s.data.all isUpperAZ = true := by
  obtain ⟨g, hg, rfl⟩ := List.mem_map.1 h
  exact mem_findallAux hg

theorem mem_foldl_filter {s : String} :
    ∀ (posts init : List String),
      s ∈ posts.foldl (fun acc text => acc ++ (findall text).filter keepToken) init →
      s ∈ init ∨ (keepToken s = true ∧ ∃ t, s ∈ findall t)
  | [], _, h => Or.inl h
  | t :: ts, init, h => by
    rw [List.foldl_cons] at h
    rcases mem_foldl_filter ts _ h with h0 | h1
    · rcases List.mem_append.1 h0 with h2 | h2
      · exact Or.inl h2
      · obtain ⟨hf, hk⟩ := List.mem_filter.1 h2
        exact Or.inr ⟨hk, t, hf⟩
    · exact Or.inr h1

theorem mem_extractMentions {posts : List String} {s : String}
    (h : s ∈ extractMentions posts) :
    keepToken s = true ∧ ∃ t, s ∈ findall t := by
  unfold extractMentions at h
  rcases mem_foldl_filter posts [] h with h0 | h1
  · simp at h0
  · exact h1

theorem fst_mem_tallyStep {acc : List (String × Nat)} {x : String}
    {p : String × Nat} (h : p ∈ tallyStep acc x) :
    (∃ q ∈ acc, q.1 = p.1) ∨ p.1 = x := by
  unfold tallyStep at h
  split at h
  · obtain ⟨q, hq, hqe⟩ := List.mem_map.1 h
    refine Or.inl ⟨q, hq, ?_⟩
    split at hqe <;> rw [← hqe]
  · rcases List.mem_append.1 h with h2 | h2
    · exact Or.inl ⟨p, h2, rfl⟩
    · right
      simp only [List.mem_singleton] at h2
      rw [h2]

theorem fst_mem_tally_fold {p : String × Nat} :
    ∀ (xs : List String) (init : List (String × Nat)),
      p ∈ xs.foldl tallyStep init → (∃ q ∈ init, q.1 = p.1) ∨ p.1 ∈ xs
  | [], _, h => Or.inl ⟨p, h, rfl⟩
  | x :: ts, init, h => by
    rw [List.foldl_cons] at h
    rcases fst_mem_tally_fold ts _ h with ⟨q, hq, he⟩ | h1
    · rcases fst_mem_tallyStep hq with ⟨r, hr, hre⟩ | hqx
      · exact Or.inl ⟨r, hr, hre.trans he⟩
      · right
        rw [← he, hqx]
        exact List.mem_cons_self _ _
    · exact Or.inr (List.mem_cons_of_mem _ h1)

theorem fst_mem_tally {xs : List String} {p : String × Nat}
    (h : p ∈ tally xs) : p.1 ∈ xs := by
  unfold tally at h
  rcases fst_mem_tally_fold xs [] h with ⟨q, hq, _⟩ | h1
  · simp at hq
  · exact h1

theorem mem_insertByCount {x y : String × Nat} :
    ∀ {l : List (String × Nat)}, y ∈ insertByCount x l → y = x ∨ y ∈ l := by
  intro l
  induction l with
  | nil =>
    intro h
    simp only [insertByCount, List.mem_singleton] at h
    exact Or.inl h
  | cons z zs ih =>
    intro h
    unfold insertByCount at h
    split at h
    · rcases List.mem_cons.1 h with h1 | h1
      · exact Or.inr (List.mem_cons.2 (Or.inl h1))
      · rcases ih h1 with h2 | h2
        · exact Or.inl h2
        · exact Or.inr (List.mem_cons.2 (Or.inr h2))
    · rcases List.mem_cons.1 h with h1 | h1
      · exact Or.inl h1
      · exact Or.inr h1

theorem mem_sortFold {p : String × Nat} :
    ∀ (xs init : List (String × Nat)),
      p ∈ xs.foldl (fun acc x => insertByCount x acc) init → p ∈ init ∨ p ∈ xs
  | [], _, h => Or.inl h
  | x :: ts, init, h => by
    rw [List.foldl_cons] at h
    rcases mem_sortFold ts _ h with h0 | h1
    · rcases mem_insertByCount h0 with h2 | h2
      · exact Or.inr (List.mem_cons.2 (Or.inl h2))
      · exact Or.inl h2
    · exact Or.inr (List.mem_cons_of_mem _ h1)

theorem mem_sortByCountDesc {xs : List (String × Nat)} {p : String × Nat}
    (h : p ∈ sortByCountDesc xs) : p ∈ xs := by
  unfold sortByCountDesc at h
  rcases mem_sortFold xs [] h with h0 | h1
  · simp at h0
  · exact h1

/-!
Theorems about the meme-ticker extraction pipeline.
-/

/-- C2 counterexample: the source keeps any non-excluded uppercase token
with no known-ticker membership test at all; on a batch containing the
token MOON (which the specification requires the extractor never to
emit), the extractor emits MOON. -/
theorem meme_tickers_no_whitelist_cex :
    fetch_reddit_meme_tickers (.ok ["Buy MOON now"]) = [("MOON", 1)] ∧
    "MOON" ∉ excludeSet := by
  constructor <;> decide

/-- C2 amended: a candidate token is kept exactly when it matches the
two-to-five uppercase-letter pattern, is alphabetic, and is outside the
hardcoded exclusion set; there is no known-valid-ticker reference set in
this code, so every emitted symbol is a two-to-five letter uppercase word
outside the exclusion set, and nothing more is guaranteed. -/
theorem meme_tickers_emitted_shape (posts : List String) (s : String) (n : Nat)
    (h : (s, n) ∈ fetch_reddit_meme_tickers (.ok posts)) :
    s ∉ excludeSet ∧ 2 ≤ s.length ∧ s.length ≤ 5 ∧ s.data.all isUpperAZ = true := by
  have h1 : (s, n) ∈ (sortByCountDesc (tally (extractMentions posts))).take 5 := h
  have h2 : (s, n) ∈ tally (extractMentions posts) :=
    mem_sortByCountDesc (List.take_subset _ _ h1)
  have h3 : s ∈ extractMentions posts := fst_mem_tally h2
  obtain ⟨hk, t, hf⟩ := mem_extractMentions h3
  obtain ⟨hl2, hl5, hup⟩ := mem_findall hf
  refine ⟨?_, hl2, hl5, hup⟩
  simp only [keepToken, Bool.and_eq_true, Bool.not_eq_true'] at hk
  intro hmem
  have hc := hk.1.1
  rw [show excludeSet.contains s = excludeSet.elem s from rfl, List.elem_eq_mem,
    decide_eq_false_iff_not] at hc
  exact hc hmem

/-- Witness for C2 amended: the theorem applied to the batch containing
the single post GME up, whose extraction emits the pair (GME, 1). -/
theorem meme_tickers_emitted_shape_witness :
    "GME" ∉ excludeSet ∧ 2 ≤ "GME".length ∧ "GME".length ≤ 5 ∧
      "GME".data.all isUpperAZ = true :=
  meme_tickers_emitted_shape ["GME up"] "GME" 1 (by decide)

/-- C7: on the batch holding the single text
GME to the moon, also check dollar-AAPL and DD, the extractor returns
exactly the ranked list [(GME, 1), (AAPL, 1)] (descending count, ties in
first-encounter order, truncated to the cap of five) and emits neither DD
nor MOON. -/
theorem meme_extraction_example :
    extract_meme_tickers ["GME to the moon, also check $AAPL and DD"] =
      [("GME", 1), ("AAPL", 1)] ∧
    "DD" ∉ (extract_meme_tickers
      ["GME to the moon, also check $AAPL and DD"]).map Prod.fst ∧
    "MOON" ∉ (extract_meme_tickers
      ["GME to the moon, also check $AAPL and DD"]).map Prod.fst := by
  refine ⟨by decide, by decide, by decide⟩

/-- C8: the extractor maps an empty input batch to the empty ranked list,
and a failure of the raw fetch itself (the error branch of the except
clause) also yields the empty list; both are plain returns of the total
embedding, so no exception propagates. -/
theorem meme_tickers_empty_and_failure :
    extract_meme_tickers [] = [] ∧
    ∀ e : String, fetch_reddit_meme_tickers (.error e) = [] :=
  ⟨rfl, fun _ => rfl⟩

/-!
Theorems about the price-change lookup.
-/

/-- C9: get_price_change returns the rounded percentage change between
the two most recent closes when at least two are available, and returns
the unavailable sentinel none, without raising, on a fetch exception or
when fewer than two data points exist; and the annotation step over the
ranked mention list keeps every ticker with its count, a failed lookup
only leaving the price annotation absent. -/
theorem get_price_change_spec :
    (∀ e : String, get_price_change (.error e) = none) ∧
    (∀ closes : List ℚ, closes.length ≤ 1 → get_price_change (.ok closes) = none) ∧
    (∀ (closes rest : List ℚ) (lastC prevC : ℚ),
      closes.reverse = lastC :: prevC :: rest →
      get_price_change (.ok closes) = some (round2 ((lastC - prevC) / prevC * 100))) ∧
    (∀ (memes : List (String × Nat)) (price : String → Option ℚ),
      (annotate_mentions memes price).map (fun t => (t.1, t.2.1)) = memes) := by
  refine ⟨fun _ => rfl, ?_, ?_, ?_⟩
  · intro closes hlen
    rcases closes with _ | ⟨a, _ | ⟨b, t⟩⟩
    · rfl
    · rfl
    · simp at hlen
  · intro closes rest lastC prevC hrev
    have hstep : get_price_change (.ok closes) =
        match closes.reverse with
        | lastC :: prevC :: _ => some (round2 ((lastC - prevC) / prevC * 100))
        | _ => none := rfl
    rw [hstep, hrev]
  · intro memes price
    induction memes with
    | nil => rfl
    | cons p ps ih =>
      show ((p :: ps).map fun q => (q.1, q.2, price q.1)).map
          (fun t => (t.1, t.2.1)) = p :: ps
      rw [List.map_cons, List.map_cons]
      exact congrArg₂ List.cons rfl ih

/-- Witness for C9: the theorem applied to a one-point history (sentinel
returned) and to the history with closes 2 then 3 (rounded percentage
change returned). -/
theorem get_price_change_spec_witness :
    get_price_change (.ok [(1 : ℚ)]) = none ∧
    get_price_change (.ok [(2 : ℚ), 3]) = some (round2 ((3 - 2) / 2 * 100)) :=
  ⟨get_price_change_spec.2.1 [1] (by decide),
   get_price_change_spec.2.2.1 [2, 3] [] 3 2 (by decide)⟩

end SentimentDashboard
